import Mathlib

/-!
Verification development for the DICOM Specific Character Set decoder
(src/io/itk-dicom/charset.cpp).  Strings are modelled as lists of
characters; C string indices are Nat (or Int where the source walks an
iterator below the buffer start); the external iconv capability is an
explicit structure parameter; fallible or undefined behaviour is
modelled with Option.
-/

/-- Character list of a string literal, the byte-level view of a C string. -/
def chars (s : String) : List Char := s.data

/-- C isspace in the default locale: space, tab, newline, vertical tab,
form feed, carriage return. -/
def isspace (c : Char) : Bool :=
  c = ' ' || c = '\t' || c = '\n' || c = '\x0b' || c = '\x0c' || c = '\r'

/-- findEsc from charset.cpp: first position at or after pos holding the
escape marker byte 0x1B; the input length if the marker does not occur.
The scan loop (while pos < len and s[pos] is not 0x1B, increment pos) is
rendered as the length of the marker-free run starting at pos. -/
def findEsc (s : List Char) (pos : Nat) : Nat :=
  pos + ((s.drop pos).takeWhile (fun c => c != '\x1b')).length

/-- Read of byte i of a buffer, Int index; none when the read is outside
the buffer (an out-of-bounds access in the C++ source). -/
def getChk (s : List Char) (i : Int) : Option Char :=
  if 0 ≤ i then s.get? i.toNat else none

/-- Total variant of getChk for the observed-behaviour trim model:
a read outside the buffer returns NUL (a non-whitespace byte), which is
what the source is seen to read in practice when it walks one byte
before the start of the token. -/
def getB (s : List Char) (i : Int) : Char :=
  (getChk s i).getD '\x00'

/-- First loop of trimWhitespace: while start is not at the end and the
byte there is whitespace, advance.  The resulting start index is the
length of the leading whitespace run. -/
def trimFront (s : List Char) : Nat :=
  (s.takeWhile isspace).length

/-- Second loop of trimWhitespace (observed-behaviour model): the
do-while decrements end once, then keeps decrementing while end differs
from start and the byte at end is whitespace.  A read below index 0 —
which the C++ performs for empty or all-whitespace tokens — is taken to
yield a non-whitespace byte (getB), so the loop stops at index -1. -/
def trimBackAux (s : List Char) (start : Nat) : Nat → Int → Int
  | 0, e => e - 1
  | fuel + 1, e =>
    if e - 1 = (start : Int) then e - 1
    else if isspace (getB s (e - 1)) then trimBackAux s start fuel (e - 1)
    else e - 1

/-- trimWhitespace from charset.cpp, observed-behaviour model: drop
leading and trailing whitespace, keeping bytes start..end inclusive.
For empty or all-whitespace tokens the C++ reads one byte before the
buffer; this model takes that read to be a non-whitespace byte (the
practically observed outcome), and renders the then-reversed iterator
range as the empty token.  The faithful bounds-checked rendering is
trimWhitespaceChk below. -/
def trimWhitespace (s : List Char) : List Char :=
  (s.drop (trimFront s)).take
    (trimBackAux s (trimFront s) (s.length + 1) (s.length : Int) + 1
      - (trimFront s : Int)).toNat

/-- Second loop of trimWhitespace, bounds-checked: none as soon as the
do-while dereferences a position outside the buffer. -/
def trimBackChkAux (s : List Char) (start : Nat) : Nat → Int → Option Int
  | 0, e => some (e - 1)
  | fuel + 1, e =>
    if e - 1 = (start : Int) then some (e - 1)
    else
      match getChk s (e - 1) with
      | none => none
      | some c =>
        if isspace c then trimBackChkAux s start fuel (e - 1) else some (e - 1)

/-- trimWhitespace from charset.cpp, bounds-checked model: none when the
do-while loop reads outside the token buffer, or when the final
std::string(start, end + 1) range is reversed (both undefined behaviour
in the source); otherwise the token with leading and trailing
whitespace removed. -/
def trimWhitespaceChk (s : List Char) : Option (List Char) :=
  match trimBackChkAux s (trimFront s) (s.length + 1) (s.length : Int) with
  | none => none
  | some e =>
    if (trimFront s : Int) ≤ e + 1 then
      some ((s.drop (trimFront s)).take (e + 1 - (trimFront s : Int)).toNat)
    else none

/-- normalizeTerm from charset.cpp: whitespace trimming only. -/
def normalizeTerm (s : List Char) : List Char := trimWhitespace s

/-- DEFAULT_ENCODING from charset.cpp. -/
def DEFAULT_ENCODING : List Char := chars "ISO_IR 6"

/-- DEFAULT_ISO_2022_ENCODING from charset.cpp. -/
def DEFAULT_ISO_2022_ENCODING : List Char := chars "ISO 2022 IR 6"

/-- The ASCII iconv charset name (the global ASCII in charset.cpp). -/
def ASCII : List Char := chars "ASCII"

/-- definedTermToIconvCharset from charset.cpp: exact-match lookup from a
DICOM defined term to the iconv charset name; none models the nullptr
return for unrecognized terms. -/
def definedTermToIconvCharset (t : List Char) : Option (List Char) :=
  if t = chars "ISO_IR 6" ∨ t = chars "ISO 2022 IR 6" then some ASCII
  else if t = chars "ISO_IR 100" ∨ t = chars "ISO 2022 IR 100" then some (chars "ISO-8859-1")
  else if t = chars "ISO_IR 101" ∨ t = chars "ISO 2022 IR 101" then some (chars "ISO-8859-2")
  else if t = chars "ISO_IR 109" ∨ t = chars "ISO 2022 IR 109" then some (chars "ISO-8859-3")
  else if t = chars "ISO_IR 110" ∨ t = chars "ISO 2022 IR 110" then some (chars "ISO-8859-4")
  else if t = chars "ISO_IR 144" ∨ t = chars "ISO 2022 IR 144" then some (chars "ISO-8859-5")
  else if t = chars "ISO_IR 127" ∨ t = chars "ISO 2022 IR 127" then some (chars "ISO-8859-6")
  else if t = chars "ISO_IR 126" ∨ t = chars "ISO 2022 IR 126" then some (chars "ISO-8859-7")
  else if t = chars "ISO_IR 138" ∨ t = chars "ISO 2022 IR 138" then some (chars "ISO-8859-8")
  else if t = chars "ISO_IR 148" ∨ t = chars "ISO 2022 IR 148" then some (chars "ISO-8859-9")
  else if t = chars "ISO_IR 13" ∨ t = chars "ISO 2022 IR 13" then some (chars "SHIFT_JIS")
  else if t = chars "ISO_IR 166" ∨ t = chars "ISO 2022 IR 166" then some (chars "TIS-620")
  else if t = chars "ISO 2022 IR 87" then some (chars "ISO-2022-JP")
  else if t = chars "ISO 2022 IR 159" then some (chars "ISO-2022-JP-1")
  else if t = chars "ISO 2022 IR 149" then some (chars "EUC-KR")
  else if t = chars "ISO 2022 IR 58" then some (chars "EUC-CN")
  else if t = chars "ISO_IR 192" then some (chars "UTF-8")
  else if t = chars "GB18030" then some (chars "GB18030")
  else if t = chars "GBK" then some (chars "GBK")
  else none

/-- iso2022EscSelectCharset from charset.cpp: given the bytes after the
escape marker, the switching defined term that sequence selects; some []
models the unrecognized-sequence empty return.  The C code reads seq[1]
only when seq[0] is one of the four lead bytes it tests, and seq[2] only
for the dollar-paren sequences; none models a read beyond the available
bytes (uninitialized or out-of-bounds in the source buffer copy). -/
def iso2022EscSelectCharset (seq : List Char) : Option (List Char) :=
  match seq.get? 0 with
  | none => none
  | some c0 =>
    if c0 = '(' ∨ c0 = '-' ∨ c0 = '$' ∨ c0 = ')' then
      match seq.get? 1 with
      | none => none
      | some c1 =>
        if c0 = '(' ∧ c1 = 'B' then some (chars "ISO 2022 IR 6")
        else if c0 = '-' ∧ c1 = 'A' then some (chars "ISO 2022 IR 100")
        else if c0 = '-' ∧ c1 = 'B' then some (chars "ISO 2022 IR 101")
        else if c0 = '-' ∧ c1 = 'C' then some (chars "ISO 2022 IR 109")
        else if c0 = '-' ∧ c1 = 'D' then some (chars "ISO 2022 IR 110")
        else if c0 = '-' ∧ c1 = 'L' then some (chars "ISO 2022 IR 144")
        else if c0 = '-' ∧ c1 = 'G' then some (chars "ISO 2022 IR 127")
        else if c0 = '-' ∧ c1 = 'F' then some (chars "ISO 2022 IR 126")
        else if c0 = '-' ∧ c1 = 'H' then some (chars "ISO 2022 IR 138")
        else if c0 = '-' ∧ c1 = 'M' then some (chars "ISO 2022 IR 148")
        else if c0 = '-' ∧ (c1 = 'I' ∨ c1 = 'J') then some (chars "ISO 2022 IR 13")
        else if c0 = '-' ∧ c1 = 'T' then some (chars "ISO 2022 IR 166")
        else if c0 = '$' ∧ c1 = 'B' then some (chars "ISO 2022 IR 87")
        else if c0 = '$' ∧ (c1 = '(' ∨ c1 = ')') then
          match seq.get? 2 with
          | none => none
          | some c2 =>
            if c1 = '(' ∧ c2 = 'D' then some (chars "ISO 2022 IR 159")
            else if c1 = ')' ∧ c2 = 'C' then some (chars "ISO 2022 IR 149")
            else if c1 = ')' ∧ c2 = 'A' then some (chars "ISO 2022 IR 58")
            else some []
        else if (c0 = ')' ∧ c1 = 'I') ∨ (c0 = '(' ∧ c1 = 'J') then some (chars "ISO 2022 IR 13")
        else some []
    else some []

/-- iso2022EscSeqLength from charset.cpp: 3 when the first byte after the
marker is the dollar sign and the second byte lies in the range from
open paren to slash, otherwise 2 (marker byte not counted). -/
def iso2022EscSeqLength (seq : List Char) : Nat :=
  match seq.get? 0, seq.get? 1 with
  | some c0, some c1 => if c0 = '$' ∧ '(' ≤ c1 ∧ c1 ≤ '/' then 3 else 2
  | _, _ => 2

/-- Full split of a character list on the backslash delimiter: n
delimiters give n + 1 parts. -/
def splitBackslash : List Char → List (List Char)
  | [] => [[]]
  | c :: rest =>
    if c = '\\' then [] :: splitBackslash rest
    else
      match splitBackslash rest with
      | [] => [[c]]
      | t :: ts => (c :: t) :: ts

/-- The token sequence produced by the std::getline loop of
setSpecificCharacterSet: getline yields no token at all on an empty
stream, and yields no final empty token when the value ends with the
delimiter (end of stream with zero characters extracted sets failbit),
so those two cases are carved out of the full split. -/
def getlineTokens (s : List Char) : List (List Char) :=
  if s = [] then []
  else
    if (splitBackslash s).getLast? = some [] then (splitBackslash s).dropLast
    else splitBackslash s

/-- The token loop of setSpecificCharacterSet: for each raw token in
order, normalize it; if it is empty and is the first token, push both
default-encoding spellings; else if it is not already present, look it
up and push it unless the lookup fails or resolves to the ASCII default;
else (a duplicate) skip it with a warning.  count is the running token
index, acc the working charset vector built so far. -/
def parseLoop : List (List Char) → Nat → List (List Char) → List (List Char)
  | [], _, acc => acc
  | tok :: rest, count, acc =>
    parseLoop rest (count + 1)
      (if normalizeTerm tok = [] ∧ count = 0 then
        acc ++ [DEFAULT_ENCODING, DEFAULT_ISO_2022_ENCODING]
      else if normalizeTerm tok ∉ acc then
        match definedTermToIconvCharset (normalizeTerm tok) with
        | none => acc
        | some chname => if chname ≠ ASCII then acc ++ [normalizeTerm tok] else acc
      else acc)

/-- setSpecificCharacterSet from charset.cpp (the ParseCharsetDeclaration
of the spec): tokenize the attribute value on backslashes, run the token
loop on an initially empty vector, and push the default encoding when
the loop body never ran (count stayed zero, an input with no tokens). -/
def setSpecificCharacterSet (s : List Char) : List (List Char) :=
  if (getlineTokens s).length = 0 then
    parseLoop (getlineTokens s) 0 [] ++ [DEFAULT_ENCODING]
  else parseLoop (getlineTokens s) 0 []

/-- The external single-charset iconv capability consumed by the decoder:
whether iconv_open succeeds for a charset name, whether iconv_close of a
handle opened for a name succeeds, and the bytes a handle opened for a
name emits for an input fragment. -/
structure IconvCap where
  openOk : List Char → Bool
  closeOk : List Char → Bool
  conv : List Char → List Char → List Char

/-- A concrete capability instance: every open and close succeeds and
conversion returns its input bytes unchanged (the behaviour of iconv
from ASCII to UTF-8 on ASCII bytes). -/
def idCap : IconvCap := ⟨fun _ => true, fun _ => true, fun _ b => b⟩

/-- The strncpy-built working copy of the input made by
convertCharStringToUTF8: strncpy stops at the first NUL byte and pads
the rest of the len-byte copy with NUL. -/
def strncpyCopy (s : List Char) : List Char :=
  s.takeWhile (fun c => c != '\x00')
    ++ List.replicate (s.length - (s.takeWhile (fun c => c != '\x00')).length) '\x00'

/-- Truncation of the over-allocated NUL-filled output buffer at its
first NUL byte, performed by the final std::string construction. -/
def truncNull (l : List Char) : List Char :=
  l.takeWhile (fun c => c != '\x00')

/-- The current input fragment: bytes fs (inclusive) to fe (exclusive)
of the working copy. -/
def fragOf (copied : List Char) (fs fe : Nat) : List Char :=
  (copied.drop fs).take (fe - fs)

/-- Outcome of inspecting the escape sequence at marker position fe
during the multi-charset scan. -/
inductive SwitchResult where
  | bailUB
  | bail
  | go (nextCharset : List Char) (newFs : Nat)
deriving DecidableEq, Repr

/-- The escape-handling block of convertCharStringToUTF8 at a marker
sitting at position fe: select the candidate term from the bytes after
the marker (bailUB when that inspection reads past the available bytes,
undefined behaviour in the source); bail when the term has no iconv
charset or is not a member of the working set, or when closing the old
handle or opening the new one fails; otherwise switch, advancing the
cursor past the marker and its sequence except for the two Japanese
ISO-2022 iconv charsets, which must see their escape sequences inline. -/
def evalSwitch (cap : IconvCap) (charsets : List (List Char)) (copied : List Char)
    (fe : Nat) (cur : List Char) : SwitchResult :=
  match iso2022EscSelectCharset (copied.drop (fe + 1)) with
  | none => SwitchResult.bailUB
  | some nextTerm =>
    match definedTermToIconvCharset nextTerm with
    | none => SwitchResult.bail
    | some nextCharset =>
      if nextTerm ∈ charsets then
        if cap.closeOk cur then
          if cap.openOk nextCharset then
            SwitchResult.go nextCharset
              (if nextCharset = chars "ISO-2022-JP" ∨ nextCharset = chars "ISO-2022-JP-1"
               then fe
               else fe + 1 + iso2022EscSeqLength (copied.drop (fe + 1)))
          else SwitchResult.bail
        else SwitchResult.bail
      else SwitchResult.bail

/-- The multi-charset scan loop of convertCharStringToUTF8.  State: fs is
the cursor (fragmentStart), cur the charset name of the open handle, out
the output accumulated so far, calls the conversion calls made so far
(charset name and fragment fed), room the remaining output buffer bytes.
Each iteration converts the fragment from fs to the next marker (scan
starting at fs + 1), then either stops at end of input, bails with
partial output, propagates undefined behaviour (none output), or
switches and loops.  The fuel argument only bounds the recursion; the
cursor strictly increases each iteration, so the callers pass length + 1
fuel, which the loop never exhausts. -/
def decodeLoop (cap : IconvCap) (charsets : List (List Char)) (s copied : List Char) :
    Nat → Nat → List Char → List Char → List (List Char × List Char) → Nat →
    Option (List Char) × List (List Char × List Char)
  | 0, _, _, out, calls, _ => (some out, calls)
  | fuel + 1, fs, cur, out, calls, room =>
    if fs < s.length then
      if findEsc s (fs + 1) < s.length then
        match evalSwitch cap charsets copied (findEsc s (fs + 1)) cur with
        | SwitchResult.bailUB =>
          (none, calls ++ [(cur, fragOf copied fs (findEsc s (fs + 1)))])
        | SwitchResult.bail =>
          (some (out ++ (cap.conv cur (fragOf copied fs (findEsc s (fs + 1)))).take room),
           calls ++ [(cur, fragOf copied fs (findEsc s (fs + 1)))])
        | SwitchResult.go nextCharset newFs =>
          decodeLoop cap charsets s copied fuel newFs nextCharset
            (out ++ (cap.conv cur (fragOf copied fs (findEsc s (fs + 1)))).take room)
            (calls ++ [(cur, fragOf copied fs (findEsc s (fs + 1)))])
            (room - ((cap.conv cur (fragOf copied fs (findEsc s (fs + 1)))).take room).length)
      else
        (some (out ++ (cap.conv cur (fragOf copied fs (findEsc s (fs + 1)))).take room),
         calls ++ [(cur, fragOf copied fs (findEsc s (fs + 1)))])
    else (some out, calls)

/-- convertCharStringToUTF8 from charset.cpp, full run: none when the
working set is empty (the unconditional read of element 0 of the empty
vector is out of bounds, undefined behaviour); the empty output when
element 0 has no iconv charset or its iconv_open fails; the one-call
fast path when the set has exactly one member; otherwise the scan loop.
Result: the output bytes (none on undefined behaviour) and the list of
conversion calls made. -/
def convertRun (cap : IconvCap) (charsets : List (List Char)) (s : List Char) :
    Option (Option (List Char) × List (List Char × List Char)) :=
  match charsets.get? 0 with
  | none => none
  | some c0 =>
    match definedTermToIconvCharset c0 with
    | none => some (some [], [])
    | some initialCharset =>
      if cap.openOk initialCharset then
        if charsets.length = 1 then
          some (some ((cap.conv initialCharset (strncpyCopy s)).take (4 * s.length)),
                [(initialCharset, strncpyCopy s)])
        else
          some (decodeLoop cap charsets s (strncpyCopy s) (s.length + 1) 0
                  initialCharset [] [] (4 * s.length))
      else some (some [], [])

/-- convertCharStringToUTF8 from charset.cpp: the returned UTF-8 string,
truncated at the first NUL of the over-allocated output buffer; none
models undefined behaviour (empty working set, or an escape-sequence
inspection past the end of the buffer copy). -/
def convertCharStringToUTF8 (cap : IconvCap) (charsets : List (List Char)) (s : List Char) :
    Option (List Char) :=
  match convertRun cap charsets s with
  | none => none
  | some r =>
    match r.1 with
    | none => none
    | some out => some (truncNull out)

/-- The conversion calls (charset name and fragment) a decode run feeds
to the external converter, in order; none when the working set is empty. -/
def convertCalls (cap : IconvCap) (charsets : List (List Char)) (s : List Char) :
    Option (List (List Char × List Char)) :=
  match convertRun cap charsets s with
  | none => none
  | some r => some r.2

/-- The token loop never removes elements: the working set it returns is
at least as long as the accumulator it starts from. -/
theorem parseLoop_length (toks : List (List Char)) :
    ∀ (count : Nat) (acc : List (List Char)),
      acc.length ≤ (parseLoop toks count acc).length := by
  induction toks with
  | nil => intro count acc; exact Nat.le_refl _
  | cons tok rest ih =>
    intro count acc
    rw [parseLoop]
    refine Nat.le_trans ?_ (ih (count + 1) _)
    split
    · simp
    · split
      · split
        · exact Nat.le_refl _
        · split
          · simp
          · exact Nat.le_refl _
      · exact Nat.le_refl _

/-- The scan loop only appends conversion calls: whatever it returns, the
calls accumulator it started from is an initial segment of it. -/
theorem decodeLoop_calls_extend
    (cap : IconvCap) (charsets : List (List Char)) (s copied : List Char) :
    ∀ (fuel fs : Nat) (cur out : List Char) (calls : List (List Char × List Char)) (room : Nat),
      ∃ extra,
        (decodeLoop cap charsets s copied fuel fs cur out calls room).2 = calls ++ extra := by
  intro fuel
  induction fuel with
  | zero =>
    intro fs cur out calls room
    exact ⟨[], by simp [decodeLoop]⟩
  | succ fuel ih =>
    intro fs cur out calls room
    rw [decodeLoop]
    by_cases h1 : fs < s.length
    · rw [if_pos h1]
      by_cases h2 : findEsc s (fs + 1) < s.length
      · rw [if_pos h2]
        cases hsw : evalSwitch cap charsets copied (findEsc s (fs + 1)) cur with
        | bailUB => exact ⟨[(cur, fragOf copied fs (findEsc s (fs + 1)))], rfl⟩
        | bail => exact ⟨[(cur, fragOf copied fs (findEsc s (fs + 1)))], rfl⟩
        | go nc nfs =>
          obtain ⟨extra, he⟩ := ih nfs nc
            (out ++ (cap.conv cur (fragOf copied fs (findEsc s (fs + 1)))).take room)
            (calls ++ [(cur, fragOf copied fs (findEsc s (fs + 1)))])
            (room - ((cap.conv cur (fragOf copied fs (findEsc s (fs + 1)))).take room).length)
          exact ⟨[(cur, fragOf copied fs (findEsc s (fs + 1)))] ++ extra, by
            rw [he]; simp⟩
      · rw [if_neg h2]
        exact ⟨[(cur, fragOf copied fs (findEsc s (fs + 1)))], rfl⟩
    · rw [if_neg h1]
      exact ⟨[], by simp⟩

/-- One unrolling of the scan loop, call side: when the cursor is inside
the input, the iteration always records one conversion call, with the
current charset and the fragment running to the next marker (scanned
from cursor plus one), before anything after that marker is looked at. -/
theorem decodeLoop_first_call
    (cap : IconvCap) (charsets : List (List Char)) (s copied : List Char)
    (fuel fs : Nat) (cur out : List Char) (calls : List (List Char × List Char)) (room : Nat)
    (h : fs < s.length) :
    ∃ extra,
      (decodeLoop cap charsets s copied (fuel + 1) fs cur out calls room).2 =
        calls ++ (cur, fragOf copied fs (findEsc s (fs + 1))) :: extra := by
  rw [decodeLoop, if_pos h]
  by_cases h2 : findEsc s (fs + 1) < s.length
  · rw [if_pos h2]
    cases hsw : evalSwitch cap charsets copied (findEsc s (fs + 1)) cur with
    | bailUB => exact ⟨[], by simp⟩
    | bail => exact ⟨[], by simp⟩
    | go nc nfs =>
      obtain ⟨extra, he⟩ := decodeLoop_calls_extend cap charsets s copied fuel nfs nc
        (out ++ (cap.conv cur (fragOf copied fs (findEsc s (fs + 1)))).take room)
        (calls ++ [(cur, fragOf copied fs (findEsc s (fs + 1)))])
        (room - ((cap.conv cur (fragOf copied fs (findEsc s (fs + 1)))).take room).length)
      exact ⟨extra, by dsimp only; rw [he]; simp⟩
  · rw [if_neg h2]
    exact ⟨[], by simp⟩

/-- C1 counterexample: the claim that the working set always has at least
one element fails — a declaration whose single token is a spelling of
the default table, and one whose single token is unrecognized, both
yield an empty working set (no fallback occurs because the token count
is nonzero). -/
theorem setSpecificCharacterSet_isoir6_empty :
    setSpecificCharacterSet (chars "ISO_IR 6") = [] ∧
    setSpecificCharacterSet (chars "FOO") = [] := by decide

/-- C1 (amended): the working set is nonempty when the attribute value
yields no tokens at all, or when its first token normalizes to the
empty string (both default-fallback cases); for other inputs the set
can end up empty. -/
theorem setSpecificCharacterSet_nonempty_of_defaultish (s : List Char)
    (h : getlineTokens s = [] ∨
         ∃ t ts, getlineTokens s = t :: ts ∧ normalizeTerm t = []) :
    setSpecificCharacterSet s ≠ [] := by
  unfold setSpecificCharacterSet
  rcases h with h0 | ⟨t, ts, hts, htr⟩
  · rw [h0]
    simp [parseLoop]
  · rw [hts]
    simp only [List.length_cons]
    rw [if_neg (by omega)]
    rw [parseLoop]
    rw [if_pos ⟨htr, rfl⟩]
    have h2 := parseLoop_length ts (0 + 1)
      ([] ++ [DEFAULT_ENCODING, DEFAULT_ISO_2022_ENCODING])
    intro hnil
    rw [hnil] at h2
    simp at h2

/-- Witness for the amended C1 theorem at a concrete input: a single
backslash yields one empty token, and the resulting working set is
nonempty. -/
theorem setSpecificCharacterSet_nonempty_of_defaultish_witness :
    (getlineTokens (chars "\\") = [] ∨
      ∃ t ts, getlineTokens (chars "\\") = t :: ts ∧ normalizeTerm t = []) ∧
    setSpecificCharacterSet (chars "\\") ≠ [] := by
  refine ⟨Or.inr ⟨[], [], by decide, by decide⟩, ?_⟩
  exact setSpecificCharacterSet_nonempty_of_defaultish (chars "\\")
    (Or.inr ⟨[], [], by decide, by decide⟩)

/-- C2 counterexample: a decode against the empty working set does not
return the empty string — the unconditional read of element 0 of the
empty vector is out of bounds (undefined behaviour, modelled as none). -/
theorem convertCharStringToUTF8_emptySet_cex :
    convertCharStringToUTF8 idCap [] (chars "A") = none ∧
    ¬ convertCharStringToUTF8 idCap [] (chars "A") = some [] := by decide

/-- C2 (amended): for every capability and every input, a decode call on
the empty working set reads element 0 of the set out of bounds before
doing anything else; the result is undefined behaviour, not a clean
empty string. -/
theorem convertCharStringToUTF8_emptySet_oob (cap : IconvCap) (s : List Char) :
    convertCharStringToUTF8 cap [] s = none := rfl

/-- C3 (code_bug): the bounds-checked rendering of trimWhitespace shows
the do-while loop reading outside the token buffer for the empty token
and for an all-whitespace token (it decrements the end iterator below
the buffer start and dereferences it), while a token containing a
non-whitespace byte is trimmed correctly. -/
theorem trimWhitespaceChk_oob_empty :
    trimWhitespaceChk (chars "") = none ∧
    trimWhitespaceChk (chars "  ") = none ∧
    trimWhitespaceChk (chars " ab ") = some (chars "ab") := by decide

/-- C4 (confirmed): in the multi-charset scan, when the escape marker at
the end of the current fragment is followed by bytes whose selected term
is unrecognized (select yields the empty term, whose lookup is none),
has no converter mapping, or is not a member of the working set, the
loop returns exactly the output accumulated through the bytes before the
marker, and feeds nothing after the marker to a converter. -/
theorem decodeLoop_abort_invalid_switch
    (cap : IconvCap) (charsets : List (List Char)) (s copied : List Char)
    (fuel fs : Nat) (cur out : List Char) (calls : List (List Char × List Char))
    (room : Nat) (t : List Char)
    (hfs : fs < s.length)
    (hfe : findEsc s (fs + 1) < s.length)
    (hsel : iso2022EscSelectCharset (copied.drop (findEsc s (fs + 1) + 1)) = some t)
    (hbad : definedTermToIconvCharset t = none ∨ t ∉ charsets) :
    decodeLoop cap charsets s copied (fuel + 1) fs cur out calls room =
      (some (out ++ (cap.conv cur (fragOf copied fs (findEsc s (fs + 1)))).take room),
       calls ++ [(cur, fragOf copied fs (findEsc s (fs + 1)))]) := by
  have hsw : evalSwitch cap charsets copied (findEsc s (fs + 1)) cur =
      SwitchResult.bail := by
    rcases hbad with hb | hb
    · simp [evalSwitch, hsel, hb]
    · cases hl : definedTermToIconvCharset t with
      | none => simp [evalSwitch, hsel, hl]
      | some cs2 => simp [evalSwitch, hsel, hl, hb]
  rw [decodeLoop, if_pos hfs, if_pos hfe, hsw]

/-- Witness for C4 at the concrete example of the claim: working set of
the default switching term and Latin-1, input AB, marker, dash, Z; the
loop and the full decode both return exactly AB. -/
theorem decodeLoop_abort_invalid_switch_witness :
    decodeLoop idCap [chars "ISO 2022 IR 6", chars "ISO 2022 IR 100"]
        (chars "AB" ++ ['\x1b'] ++ chars "-Z") (chars "AB" ++ ['\x1b'] ++ chars "-Z")
        5 0 (chars "ASCII") [] [] 20 =
      (some (chars "AB"), [(chars "ASCII", chars "AB")]) ∧
    convertCharStringToUTF8 idCap [chars "ISO 2022 IR 6", chars "ISO 2022 IR 100"]
        (chars "AB" ++ ['\x1b'] ++ chars "-Z") = some (chars "AB") := by
  constructor
  · exact (decodeLoop_abort_invalid_switch idCap
      [chars "ISO 2022 IR 6", chars "ISO 2022 IR 100"]
      (chars "AB" ++ ['\x1b'] ++ chars "-Z") (chars "AB" ++ ['\x1b'] ++ chars "-Z")
      4 0 (chars "ASCII") [] [] 20 []
      (by decide) (by decide) (by decide) (Or.inl (by decide))).trans (by decide)
  · decide

/-- C5 (confirmed): with a single-member working set whose term resolves
and opens, the whole len-byte input copy is converted in one call — no
escape scanning, even when the marker byte occurs in the input — and
the result is that call's output truncated at its first NUL byte (the
bound hypothesis is the documented four-bytes-per-input-byte buffer
sizing contract). -/
theorem convertCharStringToUTF8_single_charset
    (cap : IconvCap) (c cs : List Char) (s : List Char)
    (hlook : definedTermToIconvCharset c = some cs)
    (hopen : cap.openOk cs = true)
    (hbound : (cap.conv cs (strncpyCopy s)).length ≤ 4 * s.length) :
    convertCharStringToUTF8 cap [c] s = some (truncNull (cap.conv cs (strncpyCopy s))) ∧
    convertCalls cap [c] s = some [(cs, strncpyCopy s)] := by
  unfold convertCharStringToUTF8 convertCalls convertRun
  simp [hlook, hopen, List.take_of_length_le hbound]

/-- Witness for C5 at a concrete input that contains the escape marker
byte: the single Latin-1 charset converts it whole, in one call. -/
theorem convertCharStringToUTF8_single_charset_witness :
    convertCharStringToUTF8 idCap [chars "ISO_IR 100"] ['\x1b', 'x'] =
      some (truncNull (idCap.conv (chars "ISO-8859-1") (strncpyCopy ['\x1b', 'x']))) ∧
    convertCalls idCap [chars "ISO_IR 100"] ['\x1b', 'x'] =
      some [(chars "ISO-8859-1", strncpyCopy ['\x1b', 'x'])] :=
  convertCharStringToUTF8_single_charset idCap (chars "ISO_IR 100")
    (chars "ISO-8859-1") ['\x1b', 'x'] (by decide) (by decide) (by decide)

/-- C6 (confirmed): a successful table switch converts exactly the bytes
before the marker and continues with the cursor advanced to marker
position plus one plus the escape-sequence length — except when the new
iconv charset is one of the two Japanese ISO-2022 variants, in which
case the cursor stays at the marker, so the marker and its sequence are
part of the next fragment handed to the new converter. -/
theorem decodeLoop_switch_cursor
    (cap : IconvCap) (charsets : List (List Char)) (s copied : List Char)
    (fuel fs : Nat) (cur out : List Char) (calls : List (List Char × List Char))
    (room : Nat) (t cs2 : List Char)
    (hfs : fs < s.length)
    (hfe : findEsc s (fs + 1) < s.length)
    (hsel : iso2022EscSelectCharset (copied.drop (findEsc s (fs + 1) + 1)) = some t)
    (hlook : definedTermToIconvCharset t = some cs2)
    (hmem : t ∈ charsets)
    (hclose : cap.closeOk cur = true)
    (hopen : cap.openOk cs2 = true) :
    decodeLoop cap charsets s copied (fuel + 1) fs cur out calls room =
      decodeLoop cap charsets s copied fuel
        (if cs2 = chars "ISO-2022-JP" ∨ cs2 = chars "ISO-2022-JP-1"
         then findEsc s (fs + 1)
         else findEsc s (fs + 1) + 1 + iso2022EscSeqLength (copied.drop (findEsc s (fs + 1) + 1)))
        cs2
        (out ++ (cap.conv cur (fragOf copied fs (findEsc s (fs + 1)))).take room)
        (calls ++ [(cur, fragOf copied fs (findEsc s (fs + 1)))])
        (room - ((cap.conv cur (fragOf copied fs (findEsc s (fs + 1)))).take room).length) := by
  have hsw : evalSwitch cap charsets copied (findEsc s (fs + 1)) cur =
      SwitchResult.go cs2
        (if cs2 = chars "ISO-2022-JP" ∨ cs2 = chars "ISO-2022-JP-1"
         then findEsc s (fs + 1)
         else findEsc s (fs + 1) + 1 + iso2022EscSeqLength (copied.drop (findEsc s (fs + 1) + 1))) := by
    simp [evalSwitch, hsel, hlook, hmem, hclose, hopen]
  rw [decodeLoop, if_pos hfs, if_pos hfe, hsw]

/-- Witness for C6 at two concrete switches: a Latin-1 switch advances
the cursor past marker and sequence (position 1 to 4), a Japanese
ISO-2022 switch leaves the cursor at the marker (position 1). -/
theorem decodeLoop_switch_cursor_witness :
    decodeLoop idCap [chars "ISO 2022 IR 6", chars "ISO 2022 IR 100"]
        (['A', '\x1b'] ++ chars "-Ab") (['A', '\x1b'] ++ chars "-Ab")
        5 0 (chars "ASCII") [] [] 20 =
      decodeLoop idCap [chars "ISO 2022 IR 6", chars "ISO 2022 IR 100"]
        (['A', '\x1b'] ++ chars "-Ab") (['A', '\x1b'] ++ chars "-Ab")
        4 4 (chars "ISO-8859-1") ['A'] [(chars "ASCII", ['A'])] 19 ∧
    decodeLoop idCap [chars "ISO 2022 IR 6", chars "ISO 2022 IR 87"]
        (['A', '\x1b'] ++ chars "$Bx") (['A', '\x1b'] ++ chars "$Bx")
        5 0 (chars "ASCII") [] [] 20 =
      decodeLoop idCap [chars "ISO 2022 IR 6", chars "ISO 2022 IR 87"]
        (['A', '\x1b'] ++ chars "$Bx") (['A', '\x1b'] ++ chars "$Bx")
        4 1 (chars "ISO-2022-JP") ['A'] [(chars "ASCII", ['A'])] 19 := by
  constructor
  · exact (decodeLoop_switch_cursor idCap [chars "ISO 2022 IR 6", chars "ISO 2022 IR 100"]
      (['A', '\x1b'] ++ chars "-Ab") (['A', '\x1b'] ++ chars "-Ab")
      4 0 (chars "ASCII") [] [] 20 (chars "ISO 2022 IR 100") (chars "ISO-8859-1")
      (by decide) (by decide) (by decide) (by decide) (by decide) (by decide)
      (by decide)).trans (by decide)
  · exact (decodeLoop_switch_cursor idCap [chars "ISO 2022 IR 6", chars "ISO 2022 IR 87"]
      (['A', '\x1b'] ++ chars "$Bx") (['A', '\x1b'] ++ chars "$Bx")
      4 0 (chars "ASCII") [] [] 20 (chars "ISO 2022 IR 87") (chars "ISO-2022-JP")
      (by decide) (by decide) (by decide) (by decide) (by decide) (by decide)
      (by decide)).trans (by decide)

/-- C7 (confirmed): a leading empty token followed by the Latin-1 term
yields the default plain term, the default switching term, and the
declared term, in that order. -/
theorem setSpecificCharacterSet_leading_empty_token :
    setSpecificCharacterSet (chars "\\ISO_IR 100") =
      [chars "ISO_IR 6", chars "ISO 2022 IR 6", chars "ISO_IR 100"] := by decide

/-- C8 (confirmed): the fully empty attribute value yields exactly the
default plain term, not the switching spelling. -/
theorem setSpecificCharacterSet_empty_input :
    setSpecificCharacterSet (chars "") = [chars "ISO_IR 6"] := by decide

/-- C9 counterexample: the escape-sequence length is not determined by
the first byte after the marker alone — two sequences with the same
first byte (dollar) have lengths 2 and 3. -/
theorem iso2022EscSeqLength_first_byte_cex :
    iso2022EscSeqLength (chars "$B") = 2 ∧ iso2022EscSeqLength (chars "$(D") = 3 ∧
    (chars "$B").get? 0 = (chars "$(D").get? 0 := by decide

/-- C9 (amended): the length beyond the marker is 2 or 3, and it is 3
exactly when the first byte after the marker is the dollar sign and the
second byte lies in the designated sub-range from open paren to slash;
so the length is determined by the first two bytes, not the first byte
alone. -/
theorem iso2022EscSeqLength_amended (seq : List Char) :
    (iso2022EscSeqLength seq = 2 ∨ iso2022EscSeqLength seq = 3) ∧
    (iso2022EscSeqLength seq = 3 ↔
      seq.get? 0 = some '$' ∧ ∃ c, seq.get? 1 = some c ∧ '(' ≤ c ∧ c ≤ '/') := by
  unfold iso2022EscSeqLength
  cases h0 : seq.get? 0 with
  | none => simp [h0]
  | some c0 =>
    cases h1 : seq.get? 1 with
    | none => simp [h1]
    | some c1 =>
      dsimp only
      by_cases hc : c0 = '$' ∧ '(' ≤ c1 ∧ c1 ≤ '/'
      · rw [if_pos hc]
        refine ⟨Or.inr rfl, ?_⟩
        constructor
        · intro _
          exact ⟨by rw [hc.1], c1, rfl, hc.2.1, hc.2.2⟩
        · intro _
          rfl
      · rw [if_neg hc]
        refine ⟨Or.inl rfl, ?_⟩
        constructor
        · intro h23
          exact absurd h23 (by decide)
        · rintro ⟨hd, c, hcc, hl, hr⟩
          have hd2 : c0 = '$' := by injection hd
          have hcc2 : c1 = c := by injection hcc
          exact absurd ⟨hd2, by rw [hcc2]; exact hl, by rw [hcc2]; exact hr⟩ hc

/-- C10 (confirmed): with a multi-member working set, an escape marker at
offset 0 is not interpreted as a switch — the marker scan starts at
offset 1, so the first conversion call feeds the fragment from offset 0
(marker included) up to the next marker to the converter of element 0 of
the working set. -/
theorem convertCalls_initial_esc_not_switch
    (cap : IconvCap) (charsets : List (List Char)) (s : List Char) (c0 cs0 : List Char)
    (hlen2 : 2 ≤ charsets.length)
    (hget : charsets.get? 0 = some c0)
    (hlook : definedTermToIconvCharset c0 = some cs0)
    (hopen : cap.openOk cs0 = true)
    (hesc : s.get? 0 = some '\x1b') :
    0 < findEsc s 1 ∧
    ∃ rest, convertCalls cap charsets s =
      some ((cs0, (strncpyCopy s).take (findEsc s 1)) :: rest) := by
  have hpos : 0 < s.length := by
    cases s with
    | nil => simp at hesc
    | cons a l => simp
  refine ⟨by unfold findEsc; omega, ?_⟩
  unfold convertCalls convertRun
  rw [hget]
  dsimp only
  rw [hlook]
  dsimp only
  rw [if_pos hopen, if_neg (by omega : ¬ charsets.length = 1)]
  dsimp only
  obtain ⟨extra, he⟩ := decodeLoop_first_call cap charsets s (strncpyCopy s)
    s.length 0 cs0 [] [] (4 * s.length) hpos
  rw [he]
  refine ⟨extra, ?_⟩
  have hfrag : fragOf (strncpyCopy s) 0 (findEsc s (0 + 1)) =
      (strncpyCopy s).take (findEsc s 1) := by
    unfold fragOf
    rw [List.drop_zero, Nat.sub_zero, Nat.zero_add]
  rw [hfrag]
  simp

/-- Witness for C10: a three-byte input starting with the escape marker,
decoded against a two-member working set, makes its first conversion
call with the whole marker-headed fragment and the first member's
charset. -/
theorem convertCalls_initial_esc_not_switch_witness :
    0 < findEsc (['\x1b', 'A', 'B'] : List Char) 1 ∧
    ∃ rest, convertCalls idCap [chars "ISO 2022 IR 6", chars "ISO 2022 IR 100"]
        ['\x1b', 'A', 'B'] =
      some ((chars "ASCII",
        (strncpyCopy ['\x1b', 'A', 'B']).take (findEsc ['\x1b', 'A', 'B'] 1)) :: rest) :=
  convertCalls_initial_esc_not_switch idCap
    [chars "ISO 2022 IR 6", chars "ISO 2022 IR 100"] ['\x1b', 'A', 'B']
    (chars "ISO 2022 IR 6") (chars "ASCII")
    (by decide) (by decide) (by decide) (by decide) (by decide)

